import Mathlib

/-!
Verification of the extraction-staging and lifecycle engine of a PDF
reader tool service (`src/main.py`).

The embedding models:
* the page selector (`pages_to_extract` / `zero_indexed_pages` in `read_pdf`),
* artifact path construction (`os.path.join(TEMP_DIR, f"..._page_{n}.txt")`
  and the metadata sidecar path),
* the orchestrator `read_pdf` itself, parameterised by an abstract document
  parsing collaborator (`PdfReader`), producing both the returned dictionary
  and the ordered trace of file-system events it performs,
* the retention sweeper `cleanup_old_files`, over a snapshot of the files in
  the artifact directory, with explicit per-file fault and presence flags so
  that its error handling can be stated.

Python integers are modelled as `Int`; Python lists as `List`; Python dicts
as association lists built with an insert that keeps the first-insertion key
order (as CPython dicts do); Python `None` as `Option.none`.
-/

namespace PdfReadMcp

/-- Splitting a character list at every occurrence of the separator `c`
(the code-point semantics of Python `str.split` with a one-character
separator). -/
def splitOnCharAux (c : Char) : List Char → List (List Char)
  | [] => [[]]
  | a :: rest =>
    match splitOnCharAux c rest with
    | [] => [[]]
    | h :: t => if a = c then [] :: h :: t else (a :: h) :: t

/-- Joining strings with a separator (Python `sep.join`). -/
def joinWith (sep : String) : List String → String
  | [] => ""
  | [x] => x
  | x :: y :: rest => x ++ sep ++ joinWith sep (y :: rest)

/-- Python `s.startswith(t)`, over code points. -/
def strStartsWith (s t : String) : Bool :=
  t.data.isPrefixOf s.data

/-- Python `s.endswith(t)`, over code points. -/
def strEndsWith (s t : String) : Bool :=
  t.data.isSuffixOf s.data

/-- Python `os.path.basename` for POSIX paths: everything after the last
slash. -/
def basename (p : String) : String :=
  ((splitOnCharAux '/' p.data).map String.mk).getLastD ""

/-- The stem component of Python `os.path.splitext` applied to a basename
(no slashes): split at the last dot, except that a basename consisting of
leading dots only up to that last dot is not split. -/
def splitextStem (p : String) : String :=
  let parts := (splitOnCharAux '.' p.data).map String.mk
  if parts.length ≤ 1 then p
  else if parts.dropLast.all (fun s => s.data.isEmpty) then p
  else joinWith "." parts.dropLast

/-- Python `os.path.join` for two POSIX components. -/
def ospathJoin (a b : String) : String :=
  if strStartsWith b "/" then b
  else if a.data.isEmpty || strEndsWith a "/" then a ++ b
  else a ++ "/" ++ b

/-- Decimal digits of a natural number, least significant first, with
explicit fuel (any fuel above the digit count gives the digits Python
`str(int)` renders, reversed). -/
def natDigitsRevAux : Nat → Nat → List Nat
  | 0, _ => []
  | fuel + 1, n =>
    if n < 10 then [n] else (n % 10) :: natDigitsRevAux fuel (n / 10)

/-- Decimal digits of a natural number, least significant first. -/
def natDigitsRev (n : Nat) : List Nat :=
  natDigitsRevAux (n + 1) n

/-- A decimal digit as a character. -/
def decChar : Nat → Char
  | 0 => '0' | 1 => '1' | 2 => '2' | 3 => '3' | 4 => '4'
  | 5 => '5' | 6 => '6' | 7 => '7' | 8 => '8' | 9 => '9'
  | _ => '?'

/-- Inverse of `decChar` on decimal digits. -/
def decVal : Char → Nat
  | '0' => 0 | '1' => 1 | '2' => 2 | '3' => 3 | '4' => 4
  | '5' => 5 | '6' => 6 | '7' => 7 | '8' => 8 | '9' => 9
  | _ => 10

/-- Python `str` on a non-negative integer: decimal digits, most significant
first. -/
def natDecimal (n : Nat) : String :=
  String.mk ((natDigitsRev n).reverse.map decChar)

/-- Python `str` on an integer (the rendering used by the f-string that
builds artifact names; page numbers there are always positive). -/
def intDecimal (i : Int) : String :=
  if i < 0 then "-" ++ natDecimal (-i).toNat else natDecimal i.toNat

/-- Path of one page's staged artifact:
`os.path.join(TEMP_DIR, f"{pdf_name}_{session_id}_page_{page_number + 1}.txt")`
(`pageNumber` here is already the 1-indexed number interpolated). -/
def pageArtifactPath (tempDir pdfName sessionId : String) (pageNumber : Int) :
    String :=
  ospathJoin tempDir
    (pdfName ++ "_" ++ sessionId ++ "_page_" ++ intDecimal pageNumber ++ ".txt")

/-- Path of the metadata sidecar:
`os.path.join(TEMP_DIR, f"{pdf_name}_{session_id}_metadata.json")`. -/
def metadataArtifactPath (tempDir pdfName sessionId : String) : String :=
  ospathJoin tempDir (pdfName ++ "_" ++ sessionId ++ "_metadata.json")

/-- `pages_to_extract = pages or list(range(1, total_pages + 1))`: Python
`or` falls through to the full range both when `pages` is `None` and when it
is the (falsy) empty list. -/
def pagesToExtract (pages : Option (List Int)) (total_pages : Nat) :
    List Int :=
  match pages with
  | none => (List.range total_pages).map (fun (i : Nat) => (i : Int) + 1)
  | some ps =>
    if ps.isEmpty then
      (List.range total_pages).map (fun (i : Nat) => (i : Int) + 1)
    else ps

/-- `zero_indexed_pages = [p - 1 for p in pages_to_extract if 1 <= p <= total_pages]`. -/
def zeroIndexedPages (pte : List Int) (total_pages : Nat) : List Int :=
  (pte.filter (fun p => decide (1 ≤ p ∧ p ≤ (total_pages : Int)))).map
    (fun p => p - 1)

/-- The resolved 1-indexed page set of a request: what the metadata sidecar
records and what the extraction loop stages (`p + 1` over the zero-indexed
list). -/
def resolvedPages (pages : Option (List Int)) (total_pages : Nat) : List Int :=
  (zeroIndexedPages (pagesToExtract pages total_pages) total_pages).map
    (fun p => p + 1)

/-- Association-list model of a CPython dict insert `d[k] = v`: an existing
key keeps its original position and gets the new value, a new key is
appended. -/
def dictInsert {α β : Type} [DecidableEq α] (d : List (α × β)) (k : α)
    (v : β) : List (α × β) :=
  if k ∈ d.map Prod.fst then
    d.map (fun kv => if kv.1 = k then (k, v) else kv)
  else d ++ [(k, v)]

/-- Abstract document parsing collaborator (the slice of `PyPDF2.PdfReader`
that `read_pdf` consumes): encryption flag, one-shot decrypt, page count,
optional embedded metadata, and per-page text extraction which may raise
(modelled as `Except`). `extractText` takes the 0-indexed page number. -/
structure PdfReader where
  isEncrypted : Bool
  decrypt : String → Bool
  numPages : Nat
  docMetadata : Option (List (String × String))
  extractText : Int → Except String String

/-- `metadata[key[1:]] = value` for keys starting with `/`, else
`metadata[key] = value`, over an insertion-ordered dict. -/
def normalizeMetadata (m : Option (List (String × String))) :
    List (String × String) :=
  match m with
  | none => []
  | some kvs =>
    kvs.foldl
      (fun d kv =>
        if strStartsWith kv.1 "/" then
          dictInsert d (String.mk (kv.1.data.drop 1)) kv.2
        else dictInsert d kv.1 kv.2)
      []

/-- The record serialised into the metadata sidecar. -/
structure MetaRecord where
  filename : String
  total_pages : Nat
  is_encrypted : Bool
  metadata : List (String × String)
  session_id : String
  extracted_pages : List Int
  deriving Repr, DecidableEq

/-- A file-system / collaborator event performed by `read_pdf`, in program
order. -/
inductive FsEvent where
  | writeMeta (path : String) (record : MetaRecord)
  | extractPage (zeroIndexed : Int)
  | writePage (path : String) (text : String)
  deriving Repr, DecidableEq

/-- The dictionary `read_pdf` returns; absent keys are `none`. -/
structure ReadResult where
  success : Bool
  error : Option String := none
  is_encrypted : Option Bool := none
  password_required : Option Bool := none
  total_pages : Option Nat := none
  extracted_pages : Option (List Int) := none
  metadata : Option (List (String × String)) := none
  metadata_file : Option String := none
  content_files : Option (List (Int × String)) := none
  session_id : Option String := none
  temp_dir : Option String := none
  deriving Repr, DecidableEq

/-- What a call to `read_pdf` produces: the returned dictionary plus the
ordered trace of events it performed on the way. -/
structure ReadOutcome where
  result : ReadResult
  events : List FsEvent
  deriving Repr, DecidableEq

/-- The early return for an encrypted document with no password. -/
def passwordRequiredResult : ReadResult :=
  { success := false
    error := some "This PDF is password-protected. Please provide a password."
    is_encrypted := some true
    password_required := some true }

/-- The early return when the single decryption attempt fails. -/
def passwordRejectedResult : ReadResult :=
  { success := false
    error := some "Incorrect password or PDF could not be decrypted"
    is_encrypted := some true
    password_required := some true }

/-- The extraction loop over the zero-indexed page list: for each page,
extract its text (which may raise), write the page artifact, and record
`content_files[page_number + 1] = page_file_path`. Returns the event trace,
the dict built so far, and the first raised error if any (which aborts the
loop, as the exception propagates to `read_pdf`'s outer handler). -/
def extractPages (r : PdfReader) (tempDir pdfName sessionId : String) :
    List Int → List (Int × String) →
    List FsEvent × List (Int × String) × Option String
  | [], acc => ([], acc, none)
  | p :: rest, acc =>
    match r.extractText p with
    | .error e => ([FsEvent.extractPage p], acc, some e)
    | .ok text =>
      let path := pageArtifactPath tempDir pdfName sessionId (p + 1)
      let next :=
        extractPages r tempDir pdfName sessionId rest (dictInsert acc (p + 1) path)
      (FsEvent.extractPage p :: FsEvent.writePage path text :: next.1, next.2)

/-- The body of `read_pdf` after the existence check and credential gate
have passed: metadata normalisation, page resolution, metadata sidecar
write, extraction loop, and result assembly. -/
def read_pdf_unlocked (r : PdfReader) (pages : Option (List Int))
    (file_path sessionId tempDir : String) : ReadOutcome :=
  let metadata := normalizeMetadata r.docMetadata
  let total_pages := r.numPages
  let zips := zeroIndexedPages (pagesToExtract pages total_pages) total_pages
  let pdf_name := splitextStem (basename file_path)
  let metaPath := metadataArtifactPath tempDir pdf_name sessionId
  let metaRec : MetaRecord :=
    { filename := basename file_path
      total_pages := total_pages
      is_encrypted := r.isEncrypted
      metadata := metadata
      session_id := sessionId
      extracted_pages := zips.map (fun p => p + 1) }
  let trip := extractPages r tempDir pdf_name sessionId zips []
  let content_files := trip.2.1
  let events := FsEvent.writeMeta metaPath metaRec :: trip.1
  match trip.2.2 with
  | some e =>
    { result := { success := false
                  error := some ("Error processing PDF: " ++ e) }
      events := events }
  | none =>
    { result := { success := true
                  is_encrypted := some r.isEncrypted
                  total_pages := some total_pages
                  extracted_pages := some (content_files.map Prod.fst)
                  metadata := some metadata
                  metadata_file := some metaPath
                  content_files := some content_files
                  session_id := some sessionId
                  temp_dir := some tempDir }
      events := events }

/-- `read_pdf(file_path, password, pages)`: existence check, credential
gate, then the unlocked body. `fileExists` abstracts
`os.path.exists(file_path)`; `sessionId` abstracts the fresh
`str(uuid.uuid4())[:8]` drawn for this request; `tempDir` abstracts the
process-wide `TEMP_DIR`. -/
def read_pdf (fileExists : Bool) (r : PdfReader) (password : Option String)
    (pages : Option (List Int)) (file_path sessionId tempDir : String) :
    ReadOutcome :=
  if fileExists = false then
    { result := { success := false
                  error := some ("File not found: " ++ file_path) }
      events := [] }
  else if r.isEncrypted = true then
    match password with
    | none => { result := passwordRequiredResult, events := [] }
    | some pw =>
      if r.decrypt pw = true then
        read_pdf_unlocked r pages file_path sessionId tempDir
      else { result := passwordRejectedResult, events := [] }
  else read_pdf_unlocked r pages file_path sessionId tempDir

/-- The credential gate admits the request: the document is not encrypted,
or the supplied password decrypts it. -/
def gatePasses (r : PdfReader) (password : Option String) : Prop :=
  r.isEncrypted = false ∨
    ∃ pw, password = some pw ∧ r.decrypt pw = true

/-- The file paths written during a request, in order (metadata sidecar and
page artifacts). -/
def writtenPaths (events : List FsEvent) : List String :=
  events.filterMap (fun e =>
    match e with
    | .writeMeta path _ => some path
    | .writePage path _ => some path
    | .extractPage _ => none)

/-- A file in the artifact directory as seen by one run of the sweeper:
its name (directly under `TEMP_DIR`), its `st_mtime`, whether it is still
present when an unlink is attempted (it may have been removed concurrently),
and the fault the environment injects into `stat` or `unlink` on it, if
any. -/
structure StoredFile where
  name : String
  mtime : Int
  present : Bool
  statError : Option String
  unlinkError : Option String
  deriving Repr, DecidableEq

/-- `Path.unlink(missing_ok=...)`: on a file that no longer exists, raises
`FileNotFoundError` unless `missing_ok` is true; on a present file, raises
whatever fault the environment injects. -/
def unlinkOutcome (missingOk : Bool) (f : StoredFile) : Option String :=
  if f.present = false then
    if missingOk then none else some "FileNotFoundError"
  else f.unlinkError

/-- The loop of `cleanup_old_files` over the globbed `*.txt` files, wrapped
in the single `try`/`except` of the source: each `*.txt` file is statted and,
if `current_time - st_mtime > max_age_seconds`, unlinked with
`missing_ok=True`. Any exception from `stat` or `unlink` propagates out of
the loop to the handler, so the remaining files are left untouched; the
handler logs the error, which this model returns as the second component.
Non-`*.txt` files are never touched. Returns the files still on disk and
the logged error, if any. -/
def sweepFiles (now maxAgeSeconds : Int) :
    List StoredFile → List StoredFile × Option String
  | [] => ([], none)
  | f :: rest =>
    if strEndsWith f.name ".txt" = true then
      match f.statError with
      | some e => (f :: rest, some e)
      | none =>
        if now - f.mtime > maxAgeSeconds then
          match unlinkOutcome true f with
          | some e => (f :: rest, some e)
          | none => sweepFiles now maxAgeSeconds rest
        else
          let (kept, err) := sweepFiles now maxAgeSeconds rest
          (f :: kept, err)
    else
      let (kept, err) := sweepFiles now maxAgeSeconds rest
      (f :: kept, err)

/-- `cleanup_old_files(max_age_hours)`: sweeps the artifact directory with
threshold `max_age_hours * 3600` seconds. Total — the `try`/`except`
guarantees no exception reaches the caller. -/
def cleanup_old_files (now : Int) (files : List StoredFile)
    (max_age_hours : Int) : List StoredFile × Option String :=
  sweepFiles now (max_age_hours * 3600) files

/-- A file with no injected faults that is still present at unlink time. -/
def faultFree (f : StoredFile) : Prop :=
  f.statError = none ∧ f.unlinkError = none ∧ f.present = true

instance (f : StoredFile) : Decidable (faultFree f) :=
  decidable_of_iff
    (f.statError = none ∧ f.unlinkError = none ∧ f.present = true) Iff.rfl

/-- A concrete unencrypted 3-page document used to instantiate theorems. -/
def sampleReader : PdfReader :=
  { isEncrypted := false
    decrypt := fun _ => false
    numPages := 3
    docMetadata := some [("/Title", "Sample")]
    extractText := fun p =>
      if p = 0 then .ok "alpha"
      else if p = 1 then .ok "beta"
      else if p = 2 then .ok "gamma"
      else .error "index out of range" }

/-- A concrete encrypted 2-page document whose password is "secret". -/
def lockedReader : PdfReader :=
  { isEncrypted := true
    decrypt := fun pw => pw == "secret"
    numPages := 2
    docMetadata := none
    extractText := fun p =>
      if p = 0 then .ok "one" else if p = 1 then .ok "two"
      else .error "index out of range" }

/-! ### Helper lemmas -/

theorem map_sub_one_add_one (l : List Int) :
    (l.map (fun p => p - 1)).map (fun p => p + 1) = l := by
  induction l with
  | nil => rfl
  | cons a t ih => simp [ih]

theorem pagesToExtract_ne_nil (ps : List Int) (t : Nat) (h : ps ≠ []) :
    pagesToExtract (some ps) t = ps := by
  cases ps with
  | nil => exact absurd rfl h
  | cons a l => rfl

theorem resolvedPages_some_of_ne_nil (ps : List Int) (t : Nat) (h : ps ≠ []) :
    resolvedPages (some ps) t =
      ps.filter (fun p => decide (1 ≤ p ∧ p ≤ (t : Int))) := by
  unfold resolvedPages zeroIndexedPages
  rw [pagesToExtract_ne_nil ps t h, map_sub_one_add_one]

theorem resolvedPages_all (t : Nat) :
    ((List.range t).map (fun (i : Nat) => (i : Int) + 1)).filter
        (fun p => decide (1 ≤ p ∧ p ≤ (t : Int))) =
      (List.range t).map (fun (i : Nat) => (i : Int) + 1) := by
  rw [List.filter_eq_self]
  intro a ha
  simp only [List.mem_map, List.mem_range] at ha
  obtain ⟨i, hi, rfl⟩ := ha
  simp only [decide_eq_true_eq]
  omega

theorem resolvedPages_none (t : Nat) :
    resolvedPages none t =
      (List.range t).map (fun (i : Nat) => (i : Int) + 1) := by
  unfold resolvedPages zeroIndexedPages
  have hP : pagesToExtract none t =
      (List.range t).map (fun (i : Nat) => (i : Int) + 1) := rfl
  rw [hP, resolvedPages_all, map_sub_one_add_one]

theorem resolvedPages_empty (t : Nat) :
    resolvedPages (some []) t =
      (List.range t).map (fun (i : Nat) => (i : Int) + 1) := by
  unfold resolvedPages zeroIndexedPages
  have hP : pagesToExtract (some []) t =
      (List.range t).map (fun (i : Nat) => (i : Int) + 1) := rfl
  rw [hP, resolvedPages_all, map_sub_one_add_one]

theorem read_pdf_gate (r : PdfReader) (password : Option String)
    (pages : Option (List Int)) (fp sid td : String)
    (hg : gatePasses r password) :
    read_pdf true r password pages fp sid td =
      read_pdf_unlocked r pages fp sid td := by
  rcases hg with hE | ⟨pw, hpw, hd⟩
  · simp [read_pdf, hE]
  · by_cases hE : r.isEncrypted = true
    · simp [read_pdf, hE, hpw, hd]
    · simp [read_pdf, hE]

/-! ### Claims -/

/-- C1 counterexample: the claim predicts that the requested page list `[]`
resolves to its in-range filtering, i.e. to `[]`; the code resolves it to
all pages `[1, 2, 3]` of a 3-page document, because Python's
`pages or list(range(1, total_pages + 1))` treats the empty list as falsy. -/
theorem c1_empty_list_counterexample :
    resolvedPages (some ([] : List Int)) 3 = [1, 2, 3] ∧
      ([] : List Int).filter (fun p => decide (1 ≤ p ∧ p ≤ (3 : Int))) = [] ∧
      ([1, 2, 3] : List Int) ≠ [] := by
  refine ⟨by decide, rfl, by decide⟩

/-- C1 (amended): for every NON-EMPTY requested page list, the resolved page
set is exactly the requested pages satisfying `1 ≤ p ≤ totalPages`,
preserving the caller's order and duplicates; when the page list is absent
(`None`) — or empty, which the code treats the same way — the resolved set
is `[1 .. totalPages]`. -/
theorem c1_page_selector (ps : List Int) (t : Nat) (h : ps ≠ []) :
    resolvedPages (some ps) t =
        ps.filter (fun p => decide (1 ≤ p ∧ p ≤ (t : Int))) ∧
      resolvedPages none t =
        (List.range t).map (fun (i : Nat) => (i : Int) + 1) ∧
      resolvedPages (some []) t =
        (List.range t).map (fun (i : Nat) => (i : Int) + 1) :=
  ⟨resolvedPages_some_of_ne_nil ps t h, resolvedPages_none t,
    resolvedPages_empty t⟩

/-- C1 witness: the amended statement at `ps = [2, 2, 99, 0]`, `t = 3`. -/
theorem c1_page_selector_witness :
    resolvedPages (some [2, 2, 99, 0]) 3 =
        ([2, 2, 99, 0] : List Int).filter
          (fun p => decide (1 ≤ p ∧ p ≤ (3 : Int))) ∧
      resolvedPages none 3 =
        (List.range 3).map (fun (i : Nat) => (i : Int) + 1) ∧
      resolvedPages (some []) 3 =
        (List.range 3).map (fun (i : Nat) => (i : Int) + 1) :=
  c1_page_selector [2, 2, 99, 0] 3 (by decide)

/-- C2: for every encrypted document, a missing password and a rejected
password both return `success=false`, `is_encrypted=true`,
`password_required=true` with an empty event trace (no artifacts written),
and the two returned dictionaries differ only in their error message. -/
theorem c2_credential_gate (r : PdfReader) (pages : Option (List Int))
    (fp sid td : String) (hE : r.isEncrypted = true) :
    read_pdf true r none pages fp sid td =
        { result := passwordRequiredResult, events := [] } ∧
      (∀ pw, r.decrypt pw = false →
        read_pdf true r (some pw) pages fp sid td =
          { result := passwordRejectedResult, events := [] }) ∧
      passwordRequiredResult.success = passwordRejectedResult.success ∧
      passwordRequiredResult.is_encrypted = some true ∧
      passwordRejectedResult.is_encrypted = some true ∧
      passwordRequiredResult.password_required = some true ∧
      passwordRejectedResult.password_required = some true ∧
      passwordRequiredResult.error ≠ passwordRejectedResult.error := by
  refine ⟨by simp [read_pdf, hE], ?_, rfl, rfl, rfl, rfl, rfl, by decide⟩
  intro pw hpw
  simp [read_pdf, hE, hpw]

/-- C2 witness: the statement at the concrete locked document, with the
wrong password "guess". -/
theorem c2_credential_gate_witness :
    read_pdf true lockedReader none none "/d/l.pdf" "s1" "/tmp/x" =
        { result := passwordRequiredResult, events := [] } ∧
      read_pdf true lockedReader (some "guess") none "/d/l.pdf" "s1" "/tmp/x" =
        { result := passwordRejectedResult, events := [] } := by
  have h := c2_credential_gate lockedReader none "/d/l.pdf" "s1" "/tmp/x" rfl
  exact ⟨h.1, h.2.1 "guess" rfl⟩

/-- C5: for every request that passes the credential gate and whose resolved
page set is empty (e.g. `pages=[99]` on a 3-page document), `read_pdf`
returns `success=true` with `extracted_pages=[]` and an empty content
mapping, not an error. -/
theorem c5_empty_resolved (r : PdfReader) (password : Option String)
    (pages : Option (List Int)) (fp sid td : String)
    (hg : gatePasses r password)
    (hres : resolvedPages pages r.numPages = []) :
    (read_pdf true r password pages fp sid td).result.success = true ∧
      (read_pdf true r password pages fp sid td).result.extracted_pages =
        some [] ∧
      (read_pdf true r password pages fp sid td).result.content_files =
        some [] := by
  rw [read_pdf_gate r password pages fp sid td hg]
  have hz : zeroIndexedPages (pagesToExtract pages r.numPages) r.numPages
      = [] := by
    unfold resolvedPages at hres
    exact List.map_eq_nil_iff.mp hres
  simp [read_pdf_unlocked, hz, extractPages]

/-- C5 witness: `pages=[99]` against the concrete unencrypted 3-page
document. -/
theorem c5_empty_resolved_witness :
    (read_pdf true sampleReader none (some [99]) "/d/doc.pdf" "s1"
        "/tmp/x").result.success = true ∧
      (read_pdf true sampleReader none (some [99]) "/d/doc.pdf" "s1"
        "/tmp/x").result.extracted_pages = some [] ∧
      (read_pdf true sampleReader none (some [99]) "/d/doc.pdf" "s1"
        "/tmp/x").result.content_files = some [] :=
  c5_empty_resolved sampleReader none (some [99]) "/d/doc.pdf" "s1" "/tmp/x"
    (Or.inl rfl) (by decide)

/-- Fault-free runs of the sweeper loop delete exactly the `*.txt` files
strictly older than the threshold and report no error. -/
theorem sweepFiles_ok (now s : Int) (files : List StoredFile)
    (hok : ∀ f ∈ files, faultFree f) :
    sweepFiles now s files =
      (files.filter
          (fun f => !(strEndsWith f.name ".txt" && decide (now - f.mtime > s))),
        none) := by
  induction files with
  | nil => rfl
  | cons f rest ih =>
    obtain ⟨hs, hu, hp⟩ := hok f (by simp)
    have hrest := ih (fun g hg => hok g (by simp [hg]))
    by_cases ht : strEndsWith f.name ".txt" = true
    · by_cases hold : now - f.mtime > s
      · simp [sweepFiles, unlinkOutcome, ht, hs, hu, hp, hold, hrest]
      · simp [sweepFiles, unlinkOutcome, ht, hs, hu, hp, hold, hrest]
    · simp [sweepFiles, ht, hrest]

/-- A stale metadata sidecar, for the C3 counterexample. -/
def staleMetaFile : StoredFile :=
  { name := "doc_ab12cd34_metadata.json"
    mtime := 0
    present := true
    statError := none
    unlinkError := none }

/-- C3 counterexample: a metadata artifact 1 000 000 s old — far beyond the
24-hour threshold — still exists after the sweep, because the sweeper only
globs `*.txt` and never touches `.json` sidecars; the claim predicts it no
longer exists. -/
theorem c3_metadata_survives_counterexample :
    (cleanup_old_files 1000000 [staleMetaFile] 24).1 = [staleMetaFile] ∧
      1000000 - staleMetaFile.mtime > 24 * 3600 ∧
      strEndsWith staleMetaFile.name ".txt" = false := by
  exact ⟨by decide, by decide, by decide⟩

/-- C3 (amended): after a fault-free `sweep(directory, maxAge)` run, every
PAGE artifact (`*.txt` file) older than `now - maxAge` no longer exists, and
every file newer than the threshold still exists; metadata sidecars
(`.json`) are never deleted regardless of age, since the sweeper only globs
`*.txt`. -/
theorem c3_sweeper (now maxh : Int) (files : List StoredFile)
    (hok : ∀ f ∈ files, faultFree f) :
    (cleanup_old_files now files maxh).1 =
        files.filter
          (fun f =>
            !(strEndsWith f.name ".txt" && decide (now - f.mtime > maxh * 3600))) ∧
      (∀ f ∈ files, strEndsWith f.name ".txt" = true →
        now - f.mtime > maxh * 3600 →
        f ∉ (cleanup_old_files now files maxh).1) ∧
      (∀ f ∈ files, ¬ now - f.mtime > maxh * 3600 →
        f ∈ (cleanup_old_files now files maxh).1) ∧
      (∀ f ∈ files, strEndsWith f.name ".txt" = false →
        f ∈ (cleanup_old_files now files maxh).1) := by
  have h := sweepFiles_ok now (maxh * 3600) files hok
  unfold cleanup_old_files
  rw [h]
  refine ⟨rfl, ?_, ?_, ?_⟩
  · intro f hf htxt hold hmem
    have := (List.mem_filter.mp hmem).2
    simp [htxt, hold] at this
  · intro f hf hnew
    exact List.mem_filter.mpr ⟨hf, by simp [hnew]⟩
  · intro f hf htxt
    exact List.mem_filter.mpr ⟨hf, by simp [htxt]⟩

/-- C3 witness: a fresh page artifact and a stale sidecar survive, a stale
page artifact is deleted. -/
theorem c3_sweeper_witness :
    (cleanup_old_files 1000000
          [staleMetaFile,
            { name := "doc_ab12cd34_page_1.txt", mtime := 0, present := true,
              statError := none, unlinkError := none },
            { name := "doc_ab12cd34_page_2.txt", mtime := 999000,
              present := true, statError := none, unlinkError := none }]
          24).1 =
        [staleMetaFile,
          { name := "doc_ab12cd34_page_1.txt", mtime := 0, present := true,
            statError := none, unlinkError := none },
          { name := "doc_ab12cd34_page_2.txt", mtime := 999000,
            present := true, statError := none,
            unlinkError := none }].filter
          (fun f =>
            !(strEndsWith f.name ".txt" &&
              decide (1000000 - f.mtime > 24 * 3600))) :=
  (c3_sweeper 1000000 24 _ (by decide)).1

/-- A stale page artifact whose unlink fails, for the C6 counterexample. -/
def failingFile : StoredFile :=
  { name := "a_s1_page_1.txt"
    mtime := 0
    present := true
    statError := none
    unlinkError := some "PermissionError" }

/-- A stale, fault-free page artifact listed after `failingFile`, for the
C6 counterexample. -/
def staleOkFile : StoredFile :=
  { name := "a_s1_page_2.txt"
    mtime := 0
    present := true
    statError := none
    unlinkError := none }

/-- C6 counterexample: with two stale page artifacts, a deletion failure on
the first leaves the second — fault-free and older than the threshold — in
place: the single `try`/`except` wraps the whole loop, so one per-file
failure DOES abort the processing of the remaining files, contrary to the
claim. -/
theorem c6_abort_counterexample :
    (cleanup_old_files 1000000 [failingFile, staleOkFile] 24).1 =
        [failingFile, staleOkFile] ∧
      (cleanup_old_files 1000000 [failingFile, staleOkFile] 24).2 =
        some "PermissionError" ∧
      strEndsWith staleOkFile.name ".txt" = true ∧
      1000000 - staleOkFile.mtime > 24 * 3600 ∧
      faultFree staleOkFile ∧
      (cleanup_old_files 1000000 [staleOkFile] 24).1 = [] := by
  exact ⟨by decide, by decide, by decide, by decide, by decide, by decide⟩

/-- C6 (amended): a failure to stat or delete one file is logged and ends
that sweep early — the remaining files are left untouched rather than
processed — but `sweep` itself never raises to its caller (it is a total
function returning the logged error as a value, mirroring the
`try`/`except` around the loop); deleting an already-missing file is not an
error and the sweep continues past it (`unlink(missing_ok=True)`). -/
theorem c6_sweep_error_handling (now maxh : Int) (f : StoredFile)
    (rest : List StoredFile) (e : String)
    (htxt : strEndsWith f.name ".txt" = true)
    (hold : now - f.mtime > maxh * 3600) :
    (f.statError = some e →
        cleanup_old_files now (f :: rest) maxh = (f :: rest, some e)) ∧
      (f.statError = none → f.present = true → f.unlinkError = some e →
        cleanup_old_files now (f :: rest) maxh = (f :: rest, some e)) ∧
      (f.statError = none → f.present = false →
        cleanup_old_files now (f :: rest) maxh =
          cleanup_old_files now rest maxh) := by
  refine ⟨?_, ?_, ?_⟩
  · intro hs
    simp [cleanup_old_files, sweepFiles, htxt, hs]
  · intro hs hp hu
    simp [cleanup_old_files, sweepFiles, unlinkOutcome, htxt, hs, hp, hu, hold]
  · intro hs hp
    simp [cleanup_old_files, sweepFiles, unlinkOutcome, htxt, hs, hp, hold]

/-- C6 witness: the amended statement at the concrete failing artifact. -/
theorem c6_sweep_error_handling_witness :
    cleanup_old_files 1000000 [failingFile, staleOkFile] 24 =
        ([failingFile, staleOkFile], some "PermissionError") ∧
      cleanup_old_files 1000000
          [{ name := "b_s1_page_9.txt", mtime := 0, present := false,
             statError := none, unlinkError := none }, staleOkFile] 24 =
        cleanup_old_files 1000000 [staleOkFile] 24 := by
  constructor
  · exact (c6_sweep_error_handling 1000000 24 failingFile [staleOkFile]
      "PermissionError" (by decide) (by decide)).2.1 rfl rfl rfl
  · exact (c6_sweep_error_handling 1000000 24
      { name := "b_s1_page_9.txt", mtime := 0, present := false,
        statError := none, unlinkError := none } [staleOkFile]
      "unused" (by decide) (by decide)).2.2 rfl rfl

/-- C8: running `sweep` twice in succession (no new artifacts, same clock
reading) is a no-op on the second run: it returns the surviving files
unchanged and logs no error, for every fault-free artifact directory. -/
theorem c8_sweep_idempotent (now maxh : Int) (files : List StoredFile)
    (hok : ∀ f ∈ files, faultFree f) :
    cleanup_old_files now (cleanup_old_files now files maxh).1 maxh =
      ((cleanup_old_files now files maxh).1, none) := by
  unfold cleanup_old_files
  rw [sweepFiles_ok now (maxh * 3600) files hok]
  have hok2 : ∀ f ∈ files.filter
      (fun f =>
        !(strEndsWith f.name ".txt" && decide (now - f.mtime > maxh * 3600))),
      faultFree f :=
    fun f hf => hok f (List.mem_filter.mp hf).1
  rw [sweepFiles_ok now (maxh * 3600) _ hok2]
  rw [List.filter_eq_self.mpr]
  intro a ha
  exact (List.mem_filter.mp ha).2

/-- C8 witness: two sweeps over a directory holding one stale and one fresh
page artifact plus a sidecar. -/
theorem c8_sweep_idempotent_witness :
    cleanup_old_files 1000000
        (cleanup_old_files 1000000 [staleMetaFile, staleOkFile,
            { name := "a_s1_page_3.txt", mtime := 999000, present := true,
              statError := none, unlinkError := none }] 24).1 24 =
      ((cleanup_old_files 1000000 [staleMetaFile, staleOkFile,
          { name := "a_s1_page_3.txt", mtime := 999000, present := true,
            statError := none, unlinkError := none }] 24).1, none) :=
  c8_sweep_idempotent 1000000 24 _ (by decide)

/-- First-occurrence deduplication with an explicit seen set: the key order
a CPython dict ends up with after inserting the elements of the list in
order. -/
def pyDedupAux (seen : List Int) : List Int → List Int
  | [] => []
  | p :: rest =>
    if p ∈ seen then pyDedupAux seen rest
    else p :: pyDedupAux (p :: seen) rest

/-- The key order of a CPython dict after inserting the list's elements in
order: duplicates dropped, first occurrences kept in place. -/
def pyDedup (l : List Int) : List Int :=
  pyDedupAux [] l

theorem pyDedupAux_congr (s1 s2 : List Int) (h : ∀ x, x ∈ s1 ↔ x ∈ s2) :
    ∀ l, pyDedupAux s1 l = pyDedupAux s2 l := by
  intro l
  induction l generalizing s1 s2 with
  | nil => rfl
  | cons p rest ih =>
    unfold pyDedupAux
    by_cases hp : p ∈ s1
    · rw [if_pos hp, if_pos ((h p).mp hp), ih s1 s2 h]
    · rw [if_neg hp, if_neg (fun hc => hp ((h p).mpr hc))]
      rw [ih (p :: s1) (p :: s2) (by intro x; simp [h x])]

theorem pyDedupAux_nodup (l : List Int) : ∀ seen,
    (pyDedupAux seen l).Nodup ∧ ∀ x ∈ pyDedupAux seen l, x ∉ seen := by
  induction l with
  | nil => exact fun seen => ⟨List.nodup_nil, by simp [pyDedupAux]⟩
  | cons p rest ih =>
    intro seen
    unfold pyDedupAux
    by_cases hp : p ∈ seen
    · rw [if_pos hp]; exact ih seen
    · rw [if_neg hp]
      obtain ⟨hnd, hout⟩ := ih (p :: seen)
      refine ⟨List.nodup_cons.mpr ⟨fun hc => (hout p hc) (by simp), hnd⟩, ?_⟩
      intro x hx
      rcases List.mem_cons.mp hx with rfl | hx
      · exact hp
      · exact fun hc => hout x hx (by simp [hc])

theorem pyDedup_nodup (l : List Int) : (pyDedup l).Nodup :=
  (pyDedupAux_nodup l []).1

theorem pyDedupAux_eq_self (l : List Int) : ∀ seen,
    l.Nodup → (∀ x ∈ l, x ∉ seen) → pyDedupAux seen l = l := by
  induction l with
  | nil => intro seen _ _; rfl
  | cons p rest ih =>
    intro seen hnd hdisj
    unfold pyDedupAux
    rw [if_neg (hdisj p (by simp))]
    obtain ⟨hp, hrest⟩ := List.nodup_cons.mp hnd
    have hd2 : ∀ x ∈ rest, x ∉ p :: seen := by
      intro x hx hc
      rcases List.mem_cons.mp hc with rfl | hc2
      · exact hp hx
      · exact hdisj x (by simp [hx]) hc2
    rw [ih (p :: seen) hrest hd2]

theorem pyDedup_eq_self_iff (l : List Int) : pyDedup l = l ↔ l.Nodup := by
  constructor
  · intro h
    have := pyDedup_nodup l
    rwa [h] at this
  · intro h
    exact pyDedupAux_eq_self l [] h (by simp)

theorem dictInsert_keys {α β : Type} [DecidableEq α] (d : List (α × β))
    (k : α) (v : β) :
    (dictInsert d k v).map Prod.fst =
      if k ∈ d.map Prod.fst then d.map Prod.fst
      else d.map Prod.fst ++ [k] := by
  unfold dictInsert
  by_cases h : k ∈ d.map Prod.fst
  · rw [if_pos h, if_pos h, List.map_map]
    apply List.map_congr_left
    intro kv _
    by_cases hk : kv.1 = k
    · simp [hk]
    · simp [hk]
  · rw [if_neg h, if_neg h, List.map_append]
    rfl

theorem foldl_dictInsert_keys (f : Int → String) (qs : List Int) :
    ∀ acc : List (Int × String),
      (qs.foldl (fun d q => dictInsert d q (f q)) acc).map Prod.fst =
        acc.map Prod.fst ++ pyDedupAux (acc.map Prod.fst) qs := by
  induction qs with
  | nil => intro acc; simp [pyDedupAux]
  | cons q rest ih =>
    intro acc
    rw [List.foldl_cons, ih (dictInsert acc q (f q)), dictInsert_keys]
    simp only [pyDedupAux]
    by_cases hq : q ∈ acc.map Prod.fst
    · rw [if_pos hq, if_pos hq]
    · rw [if_neg hq, if_neg hq,
        pyDedupAux_congr (acc.map Prod.fst ++ [q]) (q :: acc.map Prod.fst)
          (by intro x; simp [or_comm]) rest,
        List.append_assoc]
      rfl

theorem dictInsert_values {α β : Type} [DecidableEq α] (d : List (α × β))
    (k : α) (v : β) (g : α → β) (hd : ∀ kv ∈ d, kv.2 = g kv.1)
    (hv : v = g k) : ∀ kv ∈ dictInsert d k v, kv.2 = g kv.1 := by
  intro kv hkv
  unfold dictInsert at hkv
  by_cases h : k ∈ d.map Prod.fst
  · rw [if_pos h] at hkv
    obtain ⟨kv0, hkv0, hmap⟩ := List.mem_map.mp hkv
    by_cases hk : kv0.1 = k
    · rw [if_pos hk] at hmap
      rw [← hmap]
      exact hv
    · rw [if_neg hk] at hmap
      rw [← hmap]
      exact hd kv0 hkv0
  · rw [if_neg h] at hkv
    rcases List.mem_append.mp hkv with h1 | h1
    · exact hd kv h1
    · rw [List.mem_singleton.mp h1]
      exact hv

/-- When every page in `ps` extracts successfully, the loop raises no error
and the content dict is the fold of dict inserts over the list. -/
theorem extractPages_ok (r : PdfReader) (td pn sid : String) (ps : List Int) :
    ∀ acc, (∀ p ∈ ps, ∃ t, r.extractText p = Except.ok t) →
      (extractPages r td pn sid ps acc).2 =
        (ps.foldl
            (fun d p => dictInsert d (p + 1) (pageArtifactPath td pn sid (p + 1)))
            acc,
          none) := by
  induction ps with
  | nil => intro acc _; rfl
  | cons p rest ih =>
    intro acc hok
    obtain ⟨t, ht⟩ := hok p (by simp)
    simp only [extractPages, ht, List.foldl_cons]
    exact ih _ (fun q hq => hok q (by simp [hq]))

/-- The extraction loop never writes the metadata sidecar. -/
theorem extractPages_no_meta (r : PdfReader) (td pn sid : String)
    (ps : List Int) :
    ∀ acc path mrec,
      FsEvent.writeMeta path mrec ∉ (extractPages r td pn sid ps acc).1 := by
  induction ps with
  | nil => intro acc path mrec h; exact absurd h (List.not_mem_nil _)
  | cons p rest ih =>
    intro acc path mrec h
    rcases he : r.extractText p with e | t
    · simp only [extractPages, he] at h
      rcases List.mem_singleton.mp h
    · simp only [extractPages, he, List.mem_cons] at h
      rcases h with h | h | h
      · exact FsEvent.noConfusion h
      · exact FsEvent.noConfusion h
      · exact ih _ path mrec h

/-- The event trace of the unlocked body always starts with the metadata
sidecar write, whose record lists the full resolved page set, followed by
the extraction loop's events — whether or not extraction later fails. -/
theorem read_pdf_unlocked_events (r : PdfReader) (pages : Option (List Int))
    (fp sid td : String) :
    (read_pdf_unlocked r pages fp sid td).events =
      FsEvent.writeMeta
          (metadataArtifactPath td (splitextStem (basename fp)) sid)
          { filename := basename fp
            total_pages := r.numPages
            is_encrypted := r.isEncrypted
            metadata := normalizeMetadata r.docMetadata
            session_id := sid
            extracted_pages := resolvedPages pages r.numPages } ::
        (extractPages r td (splitextStem (basename fp)) sid
          (zeroIndexedPages (pagesToExtract pages r.numPages) r.numPages)
          []).1 := by
  unfold read_pdf_unlocked
  rcases h : (extractPages r td (splitextStem (basename fp)) sid
      (zeroIndexedPages (pagesToExtract pages r.numPages) r.numPages) []).2.2
    with _ | e
  · simp [h, resolvedPages]
  · simp [h, resolvedPages]

/-- With every page extracting successfully, the unlocked body returns the
success dictionary whose content mapping is the dict fold over the resolved
pages. -/
theorem read_pdf_unlocked_result_ok (r : PdfReader)
    (pages : Option (List Int)) (fp sid td : String)
    (hok : ∀ p ∈ zeroIndexedPages (pagesToExtract pages r.numPages) r.numPages,
      ∃ t, r.extractText p = Except.ok t) :
    (read_pdf_unlocked r pages fp sid td).result =
      { success := true
        is_encrypted := some r.isEncrypted
        total_pages := some r.numPages
        extracted_pages := some
          (((zeroIndexedPages (pagesToExtract pages r.numPages)
              r.numPages).foldl
            (fun d p => dictInsert d (p + 1)
              (pageArtifactPath td (splitextStem (basename fp)) sid (p + 1)))
            []).map Prod.fst)
        metadata := some (normalizeMetadata r.docMetadata)
        metadata_file := some
          (metadataArtifactPath td (splitextStem (basename fp)) sid)
        content_files := some
          ((zeroIndexedPages (pagesToExtract pages r.numPages)
              r.numPages).foldl
            (fun d p => dictInsert d (p + 1)
              (pageArtifactPath td (splitextStem (basename fp)) sid (p + 1)))
            [])
        session_id := some sid
        temp_dir := some td } := by
  unfold read_pdf_unlocked
  have h := extractPages_ok r td (splitextStem (basename fp)) sid
    (zeroIndexedPages (pagesToExtract pages r.numPages) r.numPages) [] hok
  have h2 : (extractPages r td (splitextStem (basename fp)) sid
      (zeroIndexedPages (pagesToExtract pages r.numPages) r.numPages)
      []).2.2 = none := by rw [h]
  have h1 : (extractPages r td (splitextStem (basename fp)) sid
      (zeroIndexedPages (pagesToExtract pages r.numPages) r.numPages)
      []).2.1 =
      (zeroIndexedPages (pagesToExtract pages r.numPages) r.numPages).foldl
        (fun d p => dictInsert d (p + 1)
          (pageArtifactPath td (splitextStem (basename fp)) sid (p + 1)))
        [] := by rw [h]
  simp [h2, h1]

/-- The key list of the content dict built over the resolved pages is their
first-occurrence deduplication. -/
theorem contentKeys_eq_pyDedup (td pn sid : String) (zips : List Int) :
    ((zips.foldl
        (fun d p => dictInsert d (p + 1) (pageArtifactPath td pn sid (p + 1)))
        []).map Prod.fst) =
      pyDedup (zips.map (fun p => p + 1)) := by
  have h := List.foldl_map (fun (p : Int) => p + 1)
    (fun d q => dictInsert d q (pageArtifactPath td pn sid q))
    zips ([] : List (Int × String))
  rw [← h, foldl_dictInsert_keys (pageArtifactPath td pn sid)
    (zips.map (fun p => p + 1)) []]
  rfl

/-- C9: with duplicates in the request, the `extracted_pages` list in the
returned dictionary is the first-occurrence deduplication of the resolved
page set (the content mapping is keyed by page number, so it has each page
at most once), whereas the `extracted_pages` field written into the
metadata sidecar is the resolved page set itself, duplicates preserved; the
two lists differ exactly when the valid requested pages contain a
duplicate. -/
theorem c9_duplicate_divergence (r : PdfReader) (password : Option String)
    (pages : Option (List Int)) (fp sid td : String)
    (hg : gatePasses r password)
    (hok : ∀ p ∈ zeroIndexedPages (pagesToExtract pages r.numPages) r.numPages,
      ∃ t, r.extractText p = Except.ok t) :
    (read_pdf true r password pages fp sid td).result.extracted_pages =
        some (pyDedup (resolvedPages pages r.numPages)) ∧
      (pyDedup (resolvedPages pages r.numPages)).Nodup ∧
      (∃ rest mrec,
        (read_pdf true r password pages fp sid td).events =
            FsEvent.writeMeta
              (metadataArtifactPath td (splitextStem (basename fp)) sid)
              mrec :: rest ∧
          mrec.extracted_pages = resolvedPages pages r.numPages) ∧
      (pyDedup (resolvedPages pages r.numPages) ≠ resolvedPages pages r.numPages
        ↔ ¬ (resolvedPages pages r.numPages).Nodup) := by
  rw [read_pdf_gate r password pages fp sid td hg]
  refine ⟨?_, pyDedup_nodup _, ?_, not_congr (pyDedup_eq_self_iff _)⟩
  · rw [read_pdf_unlocked_result_ok r pages fp sid td hok]
    simp only [contentKeys_eq_pyDedup]
    rfl
  · exact ⟨_, _, read_pdf_unlocked_events r pages fp sid td, rfl⟩

/-- C9 witness: request `[2, 2]` on the concrete 3-page document: the
result lists page 2 once, the sidecar twice. -/
theorem c9_duplicate_divergence_witness :
    (read_pdf true sampleReader none (some [2, 2]) "/d/doc.pdf" "s1"
          "/tmp/x").result.extracted_pages =
        some (pyDedup (resolvedPages (some [2, 2]) sampleReader.numPages)) ∧
      (pyDedup (resolvedPages (some [2, 2]) sampleReader.numPages)).Nodup ∧
      (∃ rest mrec,
        (read_pdf true sampleReader none (some [2, 2]) "/d/doc.pdf" "s1"
              "/tmp/x").events =
            FsEvent.writeMeta
              (metadataArtifactPath "/tmp/x"
                (splitextStem (basename "/d/doc.pdf")) "s1") mrec :: rest ∧
          mrec.extracted_pages =
            resolvedPages (some [2, 2]) sampleReader.numPages) ∧
      (pyDedup (resolvedPages (some [2, 2]) sampleReader.numPages) ≠
          resolvedPages (some [2, 2]) sampleReader.numPages
        ↔ ¬ (resolvedPages (some [2, 2]) sampleReader.numPages).Nodup) :=
  c9_duplicate_divergence sampleReader none (some [2, 2]) "/d/doc.pdf" "s1"
    "/tmp/x" (Or.inl rfl)
    (by
      intro p hp
      have : p = 1 := by
        simp [zeroIndexedPages, pagesToExtract, sampleReader] at hp
        omega
      exact ⟨"beta", by rw [this]; rfl⟩)

/-- C10: for every request that passes the credential gate, the very first
event is the metadata sidecar write, its record's `extracted_pages` is the
entire resolved page set, and no other metadata write occurs — so the
sidecar exists (listing all resolved pages) even when the resolved set is
empty or a later per-page extraction failure aborts the request. -/
theorem c10_meta_written_first (r : PdfReader) (password : Option String)
    (pages : Option (List Int)) (fp sid td : String)
    (hg : gatePasses r password) :
    ∃ rest,
      (read_pdf true r password pages fp sid td).events =
          FsEvent.writeMeta
            (metadataArtifactPath td (splitextStem (basename fp)) sid)
            { filename := basename fp
              total_pages := r.numPages
              is_encrypted := r.isEncrypted
              metadata := normalizeMetadata r.docMetadata
              session_id := sid
              extracted_pages := resolvedPages pages r.numPages } :: rest ∧
        ∀ path mrec, FsEvent.writeMeta path mrec ∉ rest := by
  rw [read_pdf_gate r password pages fp sid td hg]
  refine ⟨_, read_pdf_unlocked_events r pages fp sid td, ?_⟩
  intro path mrec
  exact extractPages_no_meta r td (splitextStem (basename fp)) sid _ [] path mrec

/-- C10 witness: a document whose pages all fail to extract still writes
the sidecar first, listing the whole resolved set. -/
theorem c10_meta_written_first_witness :
    ∃ rest,
      (read_pdf true
            { isEncrypted := false, decrypt := fun _ => false, numPages := 3,
              docMetadata := none,
              extractText := fun _ => Except.error "boom" }
            none none "/d/doc.pdf" "s1" "/tmp/x").events =
          FsEvent.writeMeta
            (metadataArtifactPath "/tmp/x"
              (splitextStem (basename "/d/doc.pdf")) "s1")
            { filename := basename "/d/doc.pdf"
              total_pages := 3
              is_encrypted := false
              metadata := normalizeMetadata none
              session_id := "s1"
              extracted_pages := resolvedPages none 3 } :: rest ∧
        ∀ path mrec, FsEvent.writeMeta path mrec ∉ rest :=
  c10_meta_written_first
    { isEncrypted := false, decrypt := fun _ => false, numPages := 3,
      docMetadata := none, extractText := fun _ => Except.error "boom" }
    none none "/d/doc.pdf" "s1" "/tmp/x" (Or.inl rfl)

/-- Value of a least-significant-first digit list. -/
def ofDigitsRev : List Nat → Nat
  | [] => 0
  | d :: rest => d + 10 * ofDigitsRev rest

theorem ofDigitsRev_natDigitsRevAux (fuel : Nat) : ∀ n, n < fuel →
    ofDigitsRev (natDigitsRevAux fuel n) = n := by
  induction fuel with
  | zero => intro n h; omega
  | succ fuel ih =>
    intro n h
    unfold natDigitsRevAux
    by_cases h10 : n < 10
    · rw [if_pos h10]
      simp [ofDigitsRev]
    · rw [if_neg h10]
      simp only [ofDigitsRev]
      rw [ih (n / 10) (by omega)]
      omega

theorem natDigitsRev_inj (a b : Nat) (h : natDigitsRev a = natDigitsRev b) :
    a = b := by
  have ha := ofDigitsRev_natDigitsRevAux (a + 1) a (by omega)
  have hb := ofDigitsRev_natDigitsRevAux (b + 1) b (by omega)
  unfold natDigitsRev at h
  rw [← ha, ← hb, h]

theorem natDigitsRevAux_lt_ten (fuel : Nat) : ∀ n, ∀ d ∈ natDigitsRevAux fuel n,
    d < 10 := by
  induction fuel with
  | zero => intro n d hd; simp [natDigitsRevAux] at hd
  | succ fuel ih =>
    intro n d hd
    unfold natDigitsRevAux at hd
    by_cases h10 : n < 10
    · rw [if_pos h10] at hd
      rw [List.mem_singleton.mp hd]
      exact h10
    · rw [if_neg h10] at hd
      rcases List.mem_cons.mp hd with rfl | hd2
      · omega
      · exact ih (n / 10) d hd2

theorem decVal_decChar (d : Nat) (h : d < 10) : decVal (decChar d) = d := by
  interval_cases d <;> rfl

theorem map_decChar_inj (l1 l2 : List Nat) (h1 : ∀ d ∈ l1, d < 10)
    (h2 : ∀ d ∈ l2, d < 10) (h : l1.map decChar = l2.map decChar) :
    l1 = l2 := by
  induction l1 generalizing l2 with
  | nil => cases l2 with
    | nil => rfl
    | cons b bs => exact absurd h (by simp)
  | cons a as ih =>
    cases l2 with
    | nil => exact absurd h (by simp)
    | cons b bs =>
      simp only [List.map_cons, List.cons.injEq] at h
      have ha := decVal_decChar a (h1 a (by simp))
      have hb := decVal_decChar b (h2 b (by simp))
      have hab : a = b := by rw [← ha, ← hb, h.1]
      rw [hab, ih bs (fun d hd => h1 d (List.mem_cons_of_mem a hd))
        (fun d hd => h2 d (List.mem_cons_of_mem b hd)) h.2]

theorem natDecimal_inj (a b : Nat) (h : natDecimal a = natDecimal b) :
    a = b := by
  unfold natDecimal at h
  have hdata : (natDigitsRev a).reverse.map decChar =
      (natDigitsRev b).reverse.map decChar := String.ext_iff.mp h
  have hrev := map_decChar_inj _ _
    (fun d hd => natDigitsRevAux_lt_ten _ _ d (List.mem_reverse.mp hd))
    (fun d hd => natDigitsRevAux_lt_ten _ _ d (List.mem_reverse.mp hd)) hdata
  have h2 := congrArg List.reverse hrev
  rw [List.reverse_reverse, List.reverse_reverse] at h2
  exact natDigitsRev_inj a b h2

theorem intDecimal_inj_nonneg (p q : Int) (hp : 0 ≤ p) (hq : 0 ≤ q)
    (h : intDecimal p = intDecimal q) : p = q := by
  unfold intDecimal at h
  rw [if_neg (by omega), if_neg (by omega)] at h
  have := natDecimal_inj _ _ h
  omega

theorem ospathJoin_data (a b : String) :
    (ospathJoin a b).data =
      (if strStartsWith b "/" then []
       else if a.data.isEmpty || strEndsWith a "/" then a.data
       else a.data ++ ['/']) ++ b.data := by
  unfold ospathJoin
  by_cases h1 : strStartsWith b "/"
  · simp [h1]
  · by_cases h2 : a.data.isEmpty || strEndsWith a "/"
    · simp [h1, h2, String.data_append]
    · simp [h1, h2, String.data_append, List.append_assoc]

theorem strStartsWith_slash_append (base x : String) (hb : base.data ≠ []) :
    strStartsWith (base ++ x) "/" = strStartsWith base "/" := by
  unfold strStartsWith
  rw [String.data_append]
  rcases hd : base.data with _ | ⟨c, cs⟩
  · exact absurd hd hb
  · simp [List.isPrefixOf]

theorem pageArtifactPath_inj_nonneg (td n sid : String) (p q : Int)
    (hp : 0 ≤ p) (hq : 0 ≤ q)
    (h : pageArtifactPath td n sid p = pageArtifactPath td n sid q) :
    p = q := by
  unfold pageArtifactPath at h
  rw [String.append_assoc (n ++ "_" ++ sid ++ "_page_") (intDecimal p) ".txt",
    String.append_assoc (n ++ "_" ++ sid ++ "_page_") (intDecimal q) ".txt"]
    at h
  have hb : (n ++ "_" ++ sid ++ "_page_").data ≠ [] := by
    intro hc
    rw [String.data_append] at hc
    exact absurd (List.append_eq_nil.mp hc).2 (by decide)
  have hd := congrArg String.data h
  rw [ospathJoin_data, ospathJoin_data,
    strStartsWith_slash_append (n ++ "_" ++ sid ++ "_page_")
      (intDecimal p ++ ".txt") hb,
    strStartsWith_slash_append (n ++ "_" ++ sid ++ "_page_")
      (intDecimal q ++ ".txt") hb] at hd
  have hda := List.append_cancel_left hd
  simp only [String.data_append] at hda
  have h1 := List.append_cancel_left hda
  have h2 := List.append_cancel_right h1
  exact intDecimal_inj_nonneg p q hp hq (String.ext h2)

theorem metadataArtifactPath_ne_pageArtifactPath (td n sid n2 sid2 : String)
    (q : Int) :
    metadataArtifactPath td n sid ≠ pageArtifactPath td n2 sid2 q := by
  intro h
  have hd : (metadataArtifactPath td n sid).data.getLast? =
      (pageArtifactPath td n2 sid2 q).data.getLast? := by rw [h]
  rw [metadataArtifactPath, pageArtifactPath, ospathJoin_data, ospathJoin_data,
    show (n ++ "_" ++ sid ++ "_metadata.json").data =
      (n ++ "_" ++ sid).data ++ "_metadata.json".data from
      String.data_append _ _,
    show (n2 ++ "_" ++ sid2 ++ "_page_" ++ intDecimal q ++ ".txt").data =
      (n2 ++ "_" ++ sid2 ++ "_page_" ++ intDecimal q).data ++ ".txt".data from
      String.data_append _ _,
    ← List.append_assoc, ← List.append_assoc,
    List.getLast?_append_of_ne_nil _
      (show "_metadata.json".data ≠ [] by decide),
    List.getLast?_append_of_ne_nil _ (show ".txt".data ≠ [] by decide)] at hd
  exact absurd hd (by decide)

theorem foldl_dictInsert_values (f : Int → String) (qs : List Int) :
    ∀ acc, (∀ kv ∈ acc, kv.2 = f kv.1) →
      ∀ kv ∈ qs.foldl (fun d q => dictInsert d q (f q)) acc, kv.2 = f kv.1 := by
  induction qs with
  | nil => intro acc hacc; exact hacc
  | cons q rest ih =>
    intro acc hacc
    rw [List.foldl_cons]
    exact ih _ (dictInsert_values acc q (f q) f hacc rfl)

/-- Every page-artifact write performed by the loop names the deterministic
path of one of the looped pages. -/
theorem extractPages_writePage_paths (r : PdfReader) (td pn sid : String)
    (ps : List Int) :
    ∀ acc path text,
      FsEvent.writePage path text ∈ (extractPages r td pn sid ps acc).1 →
      ∃ p ∈ ps, path = pageArtifactPath td pn sid (p + 1) := by
  induction ps with
  | nil => intro acc path text h; exact absurd h (List.not_mem_nil _)
  | cons p rest ih =>
    intro acc path text h
    rcases he : r.extractText p with e | t
    · simp only [extractPages, he] at h
      exact absurd (List.mem_singleton.mp h) (by intro hc; exact FsEvent.noConfusion hc)
    · simp only [extractPages, he, List.mem_cons] at h
      rcases h with h | h | h
      · exact FsEvent.noConfusion h
      · obtain ⟨hpath, -⟩ := FsEvent.writePage.inj h
        exact ⟨p, by simp, hpath⟩
      · obtain ⟨p2, hp2, hpath⟩ := ih _ path text h
        exact ⟨p2, by simp [hp2], hpath⟩

/-- C7: artifact paths are a deterministic function of the document base
name, the session id and the page number (or "metadata"): for every
successful staged extraction, the metadata sidecar is written at
`TEMP_DIR/{base}_{session}_metadata.json`, every entry of the returned
content mapping maps the 1-indexed page number `p` to
`TEMP_DIR/{base}_{session}_page_{p}.txt`, and every write event in the
trace uses one of these two path forms. -/
theorem c7_deterministic_paths (r : PdfReader) (password : Option String)
    (pages : Option (List Int)) (fp sid td : String)
    (hg : gatePasses r password)
    (hok : ∀ p ∈ zeroIndexedPages (pagesToExtract pages r.numPages) r.numPages,
      ∃ t, r.extractText p = Except.ok t) :
    (read_pdf true r password pages fp sid td).result.metadata_file =
        some (metadataArtifactPath td (splitextStem (basename fp)) sid) ∧
      (∃ cf,
        (read_pdf true r password pages fp sid td).result.content_files =
            some cf ∧
          ∀ kv ∈ cf,
            kv.2 = pageArtifactPath td (splitextStem (basename fp)) sid
              kv.1) ∧
      (∀ path mrec,
        FsEvent.writeMeta path mrec ∈
            (read_pdf true r password pages fp sid td).events →
          path = metadataArtifactPath td (splitextStem (basename fp)) sid) ∧
      (∀ path text,
        FsEvent.writePage path text ∈
            (read_pdf true r password pages fp sid td).events →
          ∃ p ∈ resolvedPages pages r.numPages,
            path = pageArtifactPath td (splitextStem (basename fp)) sid p) := by
  rw [read_pdf_gate r password pages fp sid td hg]
  refine ⟨?_, ?_, ?_, ?_⟩
  · rw [read_pdf_unlocked_result_ok r pages fp sid td hok]
  · rw [read_pdf_unlocked_result_ok r pages fp sid td hok]
    refine ⟨_, rfl, ?_⟩
    have h := List.foldl_map (fun (p : Int) => p + 1)
      (fun d q => dictInsert d q
        (pageArtifactPath td (splitextStem (basename fp)) sid q))
      (zeroIndexedPages (pagesToExtract pages r.numPages) r.numPages)
      ([] : List (Int × String))
    intro kv hkv
    refine foldl_dictInsert_values
      (pageArtifactPath td (splitextStem (basename fp)) sid)
      ((zeroIndexedPages (pagesToExtract pages r.numPages) r.numPages).map
        (fun p => p + 1))
      [] (by intro kv2 hkv2; exact absurd hkv2 (List.not_mem_nil _)) kv ?_
    rw [h]
    exact hkv
  · intro path mrec hmem
    rw [read_pdf_unlocked_events r pages fp sid td] at hmem
    rcases List.mem_cons.mp hmem with h | h
    · exact (FsEvent.writeMeta.inj h).1
    · exact absurd h (extractPages_no_meta r td (splitextStem (basename fp))
        sid _ [] path mrec)
  · intro path text hmem
    rw [read_pdf_unlocked_events r pages fp sid td] at hmem
    rcases List.mem_cons.mp hmem with h | h
    · exact FsEvent.noConfusion h
    · obtain ⟨p, hp, hpath⟩ := extractPages_writePage_paths r td
        (splitextStem (basename fp)) sid _ [] path text h
      exact ⟨p + 1, List.mem_map_of_mem (fun p => p + 1) hp, hpath⟩

/-- C7 witness: the full 3-page document extraction at concrete arguments. -/
theorem c7_deterministic_paths_witness :
    (read_pdf true sampleReader none none "/d/doc.pdf" "s1"
          "/tmp/x").result.metadata_file =
        some (metadataArtifactPath "/tmp/x"
          (splitextStem (basename "/d/doc.pdf")) "s1") ∧
      (∃ cf,
        (read_pdf true sampleReader none none "/d/doc.pdf" "s1"
              "/tmp/x").result.content_files = some cf ∧
          ∀ kv ∈ cf,
            kv.2 = pageArtifactPath "/tmp/x"
              (splitextStem (basename "/d/doc.pdf")) "s1" kv.1) ∧
      (∀ path mrec,
        FsEvent.writeMeta path mrec ∈
            (read_pdf true sampleReader none none "/d/doc.pdf" "s1"
              "/tmp/x").events →
          path = metadataArtifactPath "/tmp/x"
            (splitextStem (basename "/d/doc.pdf")) "s1") ∧
      (∀ path text,
        FsEvent.writePage path text ∈
            (read_pdf true sampleReader none none "/d/doc.pdf" "s1"
              "/tmp/x").events →
          ∃ p ∈ resolvedPages none sampleReader.numPages,
            path = pageArtifactPath "/tmp/x"
              (splitextStem (basename "/d/doc.pdf")) "s1" p) :=
  c7_deterministic_paths sampleReader none none "/d/doc.pdf" "s1" "/tmp/x"
    (Or.inl rfl)
    (by
      intro p hp
      have h3 : zeroIndexedPages (pagesToExtract none sampleReader.numPages)
          sampleReader.numPages = [0, 1, 2] := by decide
      rw [h3] at hp
      simp only [List.mem_cons, List.not_mem_nil, or_false] at hp
      rcases hp with rfl | rfl | rfl
      · exact ⟨"alpha", rfl⟩
      · exact ⟨"beta", rfl⟩
      · exact ⟨"gamma", rfl⟩)

/-- `read_pdf` either stops before touching the file system (missing file,
credential-gate failure) or runs the unlocked body. -/
theorem read_pdf_events_cases (fe : Bool) (r : PdfReader)
    (password : Option String) (pages : Option (List Int))
    (fp sid td : String) :
    (read_pdf fe r password pages fp sid td).events = [] ∨
      read_pdf fe r password pages fp sid td =
        read_pdf_unlocked r pages fp sid td := by
  cases fe with
  | false => exact Or.inl (by simp [read_pdf])
  | true =>
    by_cases hE : r.isEncrypted = true
    · cases password with
      | none => exact Or.inl (by simp [read_pdf, hE])
      | some pw =>
        by_cases hd : r.decrypt pw = true
        · exact Or.inr (by simp [read_pdf, hE, hd])
        · exact Or.inl (by simp [read_pdf, hE, hd])
    · exact Or.inr (by simp [read_pdf, hE])

/-- The page-artifact paths the loop writes form a sublist (order kept,
possibly truncated by an extraction failure) of the resolved pages' paths. -/
theorem extractPages_paths_sublist (r : PdfReader) (td pn sid : String)
    (ps : List Int) :
    ∀ acc, List.Sublist (writtenPaths (extractPages r td pn sid ps acc).1)
      (ps.map (fun p => pageArtifactPath td pn sid (p + 1))) := by
  induction ps with
  | nil => intro acc; simp [extractPages, writtenPaths]
  | cons p rest ih =>
    intro acc
    rcases he : r.extractText p with e | t
    · simp only [extractPages, he]
      have hw : writtenPaths [FsEvent.extractPage p] = [] := rfl
      rw [hw]
      exact List.nil_sublist _
    · simp only [extractPages, he, writtenPaths, List.filterMap_cons,
        List.map_cons]
      exact List.Sublist.cons₂ _ (ih _)

theorem resolvedPages_pos (pages : Option (List Int)) (t : Nat) :
    ∀ q ∈ resolvedPages pages t, 1 ≤ q := by
  intro q hq
  unfold resolvedPages zeroIndexedPages at hq
  simp only [List.map_map, List.mem_map, List.mem_filter,
    decide_eq_true_eq, Function.comp_apply] at hq
  obtain ⟨x, ⟨hx1, hx2⟩, hq⟩ := hq
  omega

/-- C4 counterexample: requesting page 2 twice makes the request write the
same artifact path `/tmp/x/doc_s1_page_2.txt` twice — the claim that no
artifact file path is written more than once during a request is false. -/
theorem c4_duplicate_write_counterexample :
    writtenPaths (read_pdf true sampleReader none (some [2, 2]) "/d/doc.pdf"
          "s1" "/tmp/x").events =
        ["/tmp/x/doc_s1_metadata.json", "/tmp/x/doc_s1_page_2.txt",
          "/tmp/x/doc_s1_page_2.txt"] ∧
      ¬ (writtenPaths (read_pdf true sampleReader none (some [2, 2])
          "/d/doc.pdf" "s1" "/tmp/x").events).Nodup := by
  exact ⟨by decide, by decide⟩

/-- C4 (amended): provided the resolved page set of the request contains no
duplicate page number, every artifact file path (the metadata sidecar and
the page artifacts) is written at most once during that request, so no
artifact of the request is rewritten in place; with duplicates in the
requested list, the duplicated page's artifact path is written once per
occurrence. -/
theorem c4_write_once (fe : Bool) (r : PdfReader) (password : Option String)
    (pages : Option (List Int)) (fp sid td : String)
    (hnd : (resolvedPages pages r.numPages).Nodup) :
    (writtenPaths (read_pdf fe r password pages fp sid td).events).Nodup := by
  rcases read_pdf_events_cases fe r password pages fp sid td with h | h
  · rw [h]
    exact List.nodup_nil
  · rw [h, read_pdf_unlocked_events r pages fp sid td]
    simp only [writtenPaths, List.filterMap_cons]
    have hsub := extractPages_paths_sublist r td (splitextStem (basename fp))
      sid (zeroIndexedPages (pagesToExtract pages r.numPages) r.numPages) []
    have hmapeq : (zeroIndexedPages (pagesToExtract pages r.numPages)
          r.numPages).map
        (fun p => pageArtifactPath td (splitextStem (basename fp)) sid
          (p + 1)) =
        (resolvedPages pages r.numPages).map
          (pageArtifactPath td (splitextStem (basename fp)) sid) := by
      unfold resolvedPages
      rw [List.map_map]
      rfl
    rw [hmapeq] at hsub
    have hparent : ((resolvedPages pages r.numPages).map
        (pageArtifactPath td (splitextStem (basename fp)) sid)).Nodup := by
      refine hnd.map_on ?_
      intro x hx y hy hxy
      exact pageArtifactPath_inj_nonneg td (splitextStem (basename fp)) sid
        x y (by have := resolvedPages_pos pages r.numPages x hx; omega)
        (by have := resolvedPages_pos pages r.numPages y hy; omega) hxy
    refine List.nodup_cons.mpr ⟨?_, hparent.sublist hsub⟩
    intro hc
    obtain ⟨q, hq, hqe⟩ := List.mem_map.mp (hsub.subset hc)
    exact metadataArtifactPath_ne_pageArtifactPath td
      (splitextStem (basename fp)) sid (splitextStem (basename fp)) sid q
      hqe.symm

/-- C4 witness: the duplicate-free request `[1, 3]` writes three distinct
paths. -/
theorem c4_write_once_witness :
    (writtenPaths (read_pdf true sampleReader none (some [1, 3]) "/d/doc.pdf"
        "s1" "/tmp/x").events).Nodup :=
  c4_write_once true sampleReader none (some [1, 3]) "/d/doc.pdf" "s1"
    "/tmp/x" (by decide)

end PdfReadMcp
